import Mathlib

/-!
Verification of the hyprspacefix tool (src/main.go) against its
natural-language specification.

The program is a thin CLI: it parses a workspace range "start-end",
selects one of two compositor backends (Hyprland direct-socket, Sway
request/reply via a client library), and assigns each workspace in the
range to a named monitor.  We embed the program shallowly:

  * Go strings become Lean `String` (parsing works on `List Char`);
  * Go `int` is 64-bit two's complement on the targeted platforms, so
    integers are `Int` together with an explicit wrap-around function
    `wrap64` at the one place overflow can occur (the loop counter
    increment `ws++`);
  * `strconv.Atoi` (= `ParseInt(s, 10, 0)` with 64-bit `int`) becomes
    `goAtoi`, including the signed-64-bit range check;
  * `strings.Split(s, "-")` becomes `splitHyphen` on the character list;
  * the external world (socket writes, the Sway RPC client, process
    execution) is abstracted by oracle functions supplied as arguments,
    and the observable behaviour of a run is a trace of `Event`s plus an
    exit code.  All diagnostic output of the program goes through Go's
    `log` package (or `fmt.Fprintf(os.Stderr, ...)` for the usage text);
    the `log` package writes to standard error by default and
    `log.SetOutput` is never called, so every printed line in the model
    carries the `StdStream.err` tag.
  * `log.Fatal`/`log.Fatalf` print their message and call `os.Exit(1)`;
    `os.Exit` does NOT run deferred functions, so on those paths the
    deferred `wm.Close()` registered at src/main.go:183 is not executed.
    The model reflects this: fatal paths end the trace without a
    `closeCall` event.
-/

/-! ## The range parser (src/main.go lines 186-199) -/

/-- `strings.Split(s, "-")` on the character list: splits on every
hyphen; the result is always nonempty, and `splitHyphen [] = [[]]`
(Go: `strings.Split("", "-") == [""]`). -/
def splitHyphen : List Char → List (List Char)
  | [] => [[]]
  | c :: rest =>
    if c = '-' then [] :: splitHyphen rest
    else
      match splitHyphen rest with
      | [] => [[c]]
      | p :: ps => (c :: p) :: ps

/-- The numeric value of a (nonempty, all-digit) decimal string; `none`
when the list is empty or contains a non-digit. -/
def digitsToNat (s : List Char) : Option Nat :=
  if s = [] then none
  else if s.all Char.isDigit then
    some (s.foldl (fun acc c => acc * 10 + (c.toNat - 48)) 0)
  else none

/-- `strconv.Atoi` on a 64-bit platform: optional leading sign, then a
nonempty run of decimal digits, with the result required to fit in a
signed 64-bit `int` (`ParseInt(s, 10, 0)`; out-of-range input yields
`ErrRange`, a non-nil error, hence `none` here). -/
def goAtoi (s : List Char) : Option Int :=
  match s with
  | [] => none
  | c :: rest =>
    if c = '+' then
      (digitsToNat rest).bind fun n =>
        if (n : Int) ≤ 2 ^ 63 - 1 then some (n : Int) else none
    else if c = '-' then
      (digitsToNat rest).bind fun n =>
        if (n : Int) ≤ 2 ^ 63 then some (-(n : Int)) else none
    else
      (digitsToNat (c :: rest)).bind fun n =>
        if (n : Int) ≤ 2 ^ 63 - 1 then some (n : Int) else none

/-- The range-parsing block of `main` (src/main.go lines 186-199):
split on hyphen, require exactly two parts, `Atoi` each part.  Each
failure is a distinct `log.Fatal` message (the text appended by
`strconv`'s error is abstracted away; the quotes of the Go literal
are written with escapes). -/
def parseRange (s : String) : Except String (Int × Int) :=
  match splitHyphen s.data with
  | [p, q] =>
    match goAtoi p with
    | none => .error "Invalid start range:"
    | some a =>
      match goAtoi q with
      | none => .error "Invalid end range:"
      | some b => .ok (a, b)
  | _ => .error "Range must be in format \x27n-m\x27"

/-! ## The Hyprland direct-socket backend (src/main.go lines 24-88)

The open socket is abstracted as an oracle `HyprConn` telling, for each
message actually written (the command with the trailing newline appended
by `sendMessage`), whether the write fails and with which error text.
`HyprlandManager.conn` is `Option HyprConn` (`none` = nil connection).
Operations return the list of commands whose write was attempted, in
order, together with the error result (`none` = success). -/

structure HyprConn where
  writeRes : String → Option String

/-- `HyprlandManager.sendMessage` (lines 58-65): nil-connection check,
then a single write of `message + "\n"`. -/
def sendMessage (conn : Option HyprConn) (message : String) : Option String :=
  match conn with
  | none => some "no connection to Hyprland"
  | some c => c.writeRes (message ++ "\n")

/-- The two command strings of `AssignWorkspaceToMonitor`
(lines 69-72), with the workspace number and monitor name substituted
verbatim by `fmt.Sprintf`. -/
def hyprlandCmds (workspace : Int) (monitor : String) : List String :=
  ["keyword workspace " ++ toString workspace ++ ",monitor:" ++ monitor,
   "dispatch moveworkspacetomonitor " ++ toString workspace ++ " " ++ monitor]

/-- The `for _, cmd := range cmds` loop of `AssignWorkspaceToMonitor`
(lines 74-78): send each command in order, stop at the first failing
write and surface its error. Returns the attempted commands and the
final result. -/
def sendCmds (conn : Option HyprConn) : List String → List String × Option String
  | [] => ([], none)
  | cmd :: rest =>
    match sendMessage conn cmd with
    | some e =>
      ([cmd], some ("failed to send command \x27" ++ cmd ++ "\x27: " ++ e))
    | none =>
      let r := sendCmds conn rest
      (cmd :: r.1, r.2)

/-- `HyprlandManager.AssignWorkspaceToMonitor` (lines 67-81). -/
def hyprAssignWorkspaceToMonitor (conn : Option HyprConn) (workspace : Int)
    (monitor : String) : List String × Option String :=
  sendCmds conn (hyprlandCmds workspace monitor)

/-- `HyprlandManager.Close` (lines 83-88): closes the connection if one
was opened, a no-op on a nil connection. The close result is the
oracle-independent success here (the model does not track the close
error, which `main` ignores anyway via `defer`). -/
def hyprClose (conn : Option HyprConn) : Option String :=
  match conn with
  | none => none
  | some _ => none

/-! ## The Sway request/reply backend (src/main.go lines 90-131)

The RPC client is abstracted as an oracle mapping the command string to
either a transport error (`Except.error`) or the structured reply list. -/

structure SwayReply where
  success : Bool
  errText : String

/-- The combined command string of `SwayManager.AssignWorkspaceToMonitor`
(lines 112-113). -/
def swayCmd (workspace : Int) (monitor : String) : String :=
  "workspace number " ++ toString workspace ++ ", move workspace to output " ++ monitor

/-- The `for _, reply := range replies` loop (lines 120-124): the first
unsuccessful reply aborts with the compositor's own error text. -/
def firstFailure : List SwayReply → Option String
  | [] => none
  | r :: rest =>
    if r.success then firstFailure rest
    else some ("Sway command failed: " ++ r.errText)

/-- `SwayManager.AssignWorkspaceToMonitor` (lines 111-127).  Returns the
list of command strings issued to `RunCommand` together with the error
result. -/
def swayAssignWorkspaceToMonitor (runCmd : String → Except String (List SwayReply))
    (workspace : Int) (monitor : String) : List String × Option String :=
  let cmd := swayCmd workspace monitor
  match runCmd cmd with
  | .error e => ([cmd], some ("failed to run Sway command: " ++ e))
  | .ok replies => ([cmd], firstFailure replies)

/-! ## The workspace loop (src/main.go line 202)

`for ws := start; ws <= end; ws++` runs over Go `int`, which is 64-bit
two's complement; `ws++` wraps around at `2^63 - 1`.  `loopAttempts`
is the faithful fuel-indexed unfolding of the loop head: it returns the
first `fuel` iteration values (the loop visits exactly the values of
`loopAttempts fuel start stop` once the list stops growing with `fuel`).
`intRange` is the idealised unbounded-integer iteration sequence; the
lemmas below show the two agree whenever `stop < 2^63 - 1` (or
`start > stop`), and that for `stop = 2^63 - 1`, `start ≤ stop` the
loop never exits. -/

/-- Two's-complement wrap-around of 64-bit signed addition results. -/
def wrap64 (n : Int) : Int :=
  (n + 2 ^ 63) % 2 ^ 64 - 2 ^ 63

/-- The first `fuel` values taken by the loop variable `ws` of the
`for ws := start; ws <= stop; ws++` loop, with the 64-bit wrap-around
of `ws++` made explicit. -/
def loopAttempts : Nat → Int → Int → List Int
  | 0, _, _ => []
  | fuel + 1, ws, stop =>
    if ws ≤ stop then ws :: loopAttempts fuel (wrap64 (ws + 1)) stop
    else []

/-- `n` consecutive integers counting up from `s`. -/
def intRangeAux : Nat → Int → List Int
  | 0, _ => []
  | n + 1, s => s :: intRangeAux n (s + 1)

/-- The idealised iteration sequence `start, start+1, ..., stop`
(empty when `start > stop`). -/
def intRange (start stop : Int) : List Int :=
  intRangeAux (stop + 1 - start).toNat start

/-! ## The orchestrator `main` (src/main.go lines 133-220)

The flag values are taken as already parsed (flag-parsing is excluded
from the spec's scope); the two concrete backends are abstracted behind
the `WindowManager` interface as a `BackendOracle` giving the result of
`Init` and of each `AssignWorkspaceToMonitor` call.  The observable
behaviour is a trace of events plus the process exit code.  A run whose
workspace loop never terminates (see `loopAttempts`) has no trace and
no exit code: `goMain` returns `none` for it. -/

/-- `strings.ToLower` (the backend selectors compared against are ASCII,
for which Go's Unicode lower-casing and per-character ASCII lower-casing
agree). -/
def goToLower (s : String) : String :=
  ⟨s.data.map Char.toLower⟩

inductive StdStream
  | out
  | err
deriving DecidableEq

inductive Event
  /-- A line printed to the given standard stream. -/
  | output (stream : StdStream) (line : String)
  /-- The usage text printed by `flag.Usage` (to standard error). -/
  | printUsage
  /-- A call of the backend's `Init`. -/
  | initCall
  /-- A call of the backend's `AssignWorkspaceToMonitor`. -/
  | assignCall (workspace : Int) (monitor : String)
  /-- A call of the backend's `Close`. -/
  | closeCall
deriving DecidableEq

structure BackendOracle where
  /-- Result of `Init` (`none` = success). -/
  initRes : Option String
  /-- Result of each `AssignWorkspaceToMonitor` call (`none` = success). -/
  assignRes : Int → String → Option String

/-- One iteration of the workspace loop (src/main.go lines 202-215):
dry-run only logs; otherwise an optional verbose line, the assignment
call, and a non-fatal error line if the call failed. All log output
goes to standard error. -/
def stepEvents (dryRun verbose : Bool) (monitor : String) (b : BackendOracle)
    (ws : Int) : List Event :=
  if dryRun then
    [.output .err ("Would assign workspace " ++ toString ws ++ " to monitor " ++ monitor)]
  else
    (if verbose then
      [Event.output .err ("Assigning workspace " ++ toString ws ++ " to monitor " ++ monitor)]
    else []) ++
    [Event.assignCall ws monitor] ++
    (match b.assignRes ws monitor with
     | some e =>
       [Event.output .err ("Error assigning workspace " ++ toString ws ++ ": " ++ e)]
     | none => [])

/-- `main` (src/main.go lines 133-220).  Faithful to the source order:
missing-flag check (prints usage, exit 1); backend selection with a
fatal default branch; `Init` with a fatal error branch; range parsing
with fatal error branches; the workspace loop; the verbose summary; the
deferred `Close`.  `log.Fatal` paths exit without running the deferred
`Close` (os.Exit skips defers), so no `closeCall` appears on them.
By `loopAttempts_eq_intRange` and `loopAttempts_maxInt_length` below,
the loop terminates iff `¬ (start ≤ stop ∧ stop = 2^63 - 1)` and then
visits exactly `intRange start stop`; the non-terminating case is
`none`. -/
def goMain (wmType monitorName workspaceRange : String) (dryRun verbose : Bool)
    (b : BackendOracle) : Option (List Event × Nat) :=
  if wmType = "" ∨ monitorName = "" ∨ workspaceRange = "" then
    some ([.printUsage], 1)
  else if goToLower wmType = "hyprland" ∨ goToLower wmType = "sway" then
    -- both arms of the switch construct their manager and continue
    -- identically under the oracle abstraction of the interface
    match b.initRes with
    | some e =>
      some ([.initCall, .output .err ("Failed to initialize " ++ wmType ++ ": " ++ e)], 1)
    | none =>
      match parseRange workspaceRange with
      | .error msg => some ([.initCall, .output .err msg], 1)
      | .ok (start, stop) =>
        if start ≤ stop ∧ stop = 2 ^ 63 - 1 then none
        else
          some ([Event.initCall] ++
            (intRange start stop).flatMap (stepEvents dryRun verbose monitorName b) ++
            (if verbose then
              [Event.output .err ("Successfully configured " ++
                toString (stop - start + 1) ++ " workspaces")]
            else []) ++
            [Event.closeCall], 0)
  else
    some ([.output .err ("Unsupported window manager: " ++ wmType)], 1)

/-- The sequence of workspaces passed to `AssignWorkspaceToMonitor`
calls in a trace, in order. -/
def assignedWs (tr : List Event) : List Int :=
  tr.filterMap fun e =>
    match e with
    | .assignCall ws _ => some ws
    | _ => none

/-- The lines a trace prints on standard output. -/
def stdoutLines (tr : List Event) : List String :=
  tr.filterMap fun e =>
    match e with
    | .output .out s => some s
    | _ => none

def isClose (e : Event) : Bool :=
  match e with
  | .closeCall => true
  | _ => false

def isUsage (e : Event) : Bool :=
  match e with
  | .printUsage => true
  | _ => false

def isInit (e : Event) : Bool :=
  match e with
  | .initCall => true
  | _ => false

/-- Trace of a possibly-diverging run (empty when diverging). -/
def runTrace (r : Option (List Event × Nat)) : List Event :=
  (r.map Prod.fst).getD []

/-- Exit code of a possibly-diverging run (0 when diverging). -/
def runCode (r : Option (List Event × Nat)) : Nat :=
  (r.map Prod.snd).getD 0

/-- A backend oracle whose `Init` and every assignment succeed. -/
def okOracle : BackendOracle :=
  { initRes := none, assignRes := fun _ _ => none }

/-! ## Loop lemmas: the wrapped 64-bit loop vs. the idealised range -/

theorem intRangeAux_length (n : Nat) (s : Int) : (intRangeAux n s).length = n := by
  induction n generalizing s with
  | zero => rfl
  | succ n ih => simp [intRangeAux, ih]

theorem mem_intRangeAux {n : Nat} {s x : Int} :
    x ∈ intRangeAux n s ↔ s ≤ x ∧ x < s + n := by
  induction n generalizing s with
  | zero => simp [intRangeAux]
  | succ n ih =>
    simp [intRangeAux, ih]
    constructor
    · rintro (rfl | ⟨h1, h2⟩) <;> omega
    · intro ⟨h1, h2⟩
      rcases eq_or_lt_of_le h1 with rfl | h1
      · exact Or.inl rfl
      · right; omega

theorem intRangeAux_pairwise (n : Nat) (s : Int) :
    (intRangeAux n s).Pairwise (· < ·) := by
  induction n generalizing s with
  | zero => exact List.Pairwise.nil
  | succ n ih =>
    refine List.Pairwise.cons (fun x hx => ?_) (ih (s + 1))
    have := mem_intRangeAux.mp hx
    omega

theorem intRange_length (start stop : Int) :
    (intRange start stop).length = (stop + 1 - start).toNat := by
  simpa [intRange] using intRangeAux_length _ start

theorem mem_intRange {start stop x : Int} :
    x ∈ intRange start stop ↔ start ≤ x ∧ x ≤ stop := by
  rw [intRange, mem_intRangeAux]
  omega

theorem intRange_pairwise (start stop : Int) :
    (intRange start stop).Pairwise (· < ·) :=
  intRangeAux_pairwise _ _

theorem intRange_nil {start stop : Int} (h : stop < start) :
    intRange start stop = [] := by
  have : (stop + 1 - start).toNat = 0 := by omega
  simp [intRange, this, intRangeAux]

theorem intRange_cons {start stop : Int} (h : start ≤ stop) :
    intRange start stop = start :: intRange (start + 1) stop := by
  have h1 : (stop + 1 - start).toNat = (stop + 1 - (start + 1)).toNat + 1 := by omega
  rw [intRange, h1, intRangeAux, intRange]

theorem wrap64_bounds (n : Int) : -2 ^ 63 ≤ wrap64 n ∧ wrap64 n < 2 ^ 63 := by
  unfold wrap64
  omega

theorem wrap64_eq {n : Int} (h1 : -2 ^ 63 ≤ n) (h2 : n < 2 ^ 63) : wrap64 n = n := by
  unfold wrap64
  omega

/-- Once the condition fails, the loop body is never entered. -/
theorem loopAttempts_nil {fuel : Nat} {ws stop : Int} (h : stop < ws) :
    loopAttempts fuel ws stop = [] := by
  cases fuel with
  | zero => rfl
  | succ fuel => simp [loopAttempts]; omega

/-- When `stop < 2^63 - 1`, the loop counter never wraps: with enough
fuel the loop visits exactly the idealised sequence `intRange ws stop`
(in particular it terminates, and adding fuel changes nothing). -/
theorem loopAttempts_eq_intRange {fuel : Nat} {ws stop : Int}
    (hstop : stop < 2 ^ 63 - 1) (hws : -2 ^ 63 ≤ ws)
    (hfuel : (stop + 1 - ws).toNat ≤ fuel) :
    loopAttempts fuel ws stop = intRange ws stop := by
  induction fuel generalizing ws with
  | zero =>
    have : stop < ws := by omega
    rw [loopAttempts, intRange_nil this]
  | succ fuel ih =>
    by_cases h : ws ≤ stop
    · have hwrap : wrap64 (ws + 1) = ws + 1 := wrap64_eq (by omega) (by omega)
      rw [loopAttempts, if_pos h, hwrap, ih (by omega) (by omega), intRange_cons h]
    · rw [loopAttempts, if_neg h, intRange_nil (by omega)]

/-- When `stop = 2^63 - 1` and the counter starts in the 64-bit range,
the loop condition holds forever: every unit of fuel produces one more
iteration, i.e. the loop never exits. -/
theorem loopAttempts_maxInt_length (fuel : Nat) {ws : Int}
    (h1 : -2 ^ 63 ≤ ws) (h2 : ws ≤ 2 ^ 63 - 1) :
    (loopAttempts fuel ws (2 ^ 63 - 1)).length = fuel := by
  induction fuel generalizing ws with
  | zero => rfl
  | succ fuel ih =>
    rw [loopAttempts, if_pos h2]
    have hb := wrap64_bounds (ws + 1)
    have hlen : (loopAttempts fuel (wrap64 (ws + 1)) (2 ^ 63 - 1)).length = fuel :=
      ih hb.1 (by omega)
    rw [List.length_cons, hlen]

/-! ## Remaining observables and the spec-modelled batch variant -/

/-- The lines a trace prints on standard error. -/
def stderrLines (tr : List Event) : List String :=
  tr.filterMap fun e =>
    match e with
    | .output .err s => some s
    | _ => none

/-- Modelled from the spec: Variant C, the batch backend, is absent from
src/ (src/main.go holds only Variants A and B; the README documents the
earlier hyprctl-based batch implementation).  Per spec section 4.2
Variant C, the batch is one long semicolon-joined command string
containing two directives per workspace in the same form as Variant A. -/
def batchCommand (start stop : Int) (monitor : String) : String :=
  String.intercalate ";" ((intRange start stop).flatMap (fun ws => hyprlandCmds ws monitor))

/-- Exit status and captured combined standard output/error of one
external process invocation. -/
structure ExecResult where
  exitCode : Nat
  combinedOutput : String

/-- Modelled from the spec: Variant C invokes the compositor's
command-line control program exactly once, passing the entire batch as
a single argument and capturing combined output; a non-zero exit is a
CommandError carrying the captured output.  `runProg` abstracts the
external invocation; the first component records the argument of every
invocation made. -/
def batchAssign (runProg : String → ExecResult) (start stop : Int) (monitor : String) :
    List String × Option String :=
  let batch := batchCommand start stop monitor
  let r := runProg batch
  ([batch], if r.exitCode = 0 then none else some r.combinedOutput)

/-- Modelled from the spec: for the batch variant a CommandError is
fatal — the run aborts with a non-zero exit status instead of
continuing per-workspace. -/
def batchRunExitCode (runProg : String → ExecResult) (start stop : Int)
    (monitor : String) : Nat :=
  match (batchAssign runProg start stop monitor).2 with
  | some _ => 1
  | none => 0

/-! ## Parser lemmas -/

theorem splitHyphen_ne_nil (s : List Char) : splitHyphen s ≠ [] := by
  cases s with
  | nil => simp [splitHyphen]
  | cons c rest =>
    rw [splitHyphen]
    by_cases h : c = '-'
    · simp [h]
    · rw [if_neg h]
      cases hs : splitHyphen rest <;> simp

/-- Every part produced by splitting on the hyphen is hyphen-free. -/
theorem mem_splitHyphen_no_hyphen :
    ∀ (s p : List Char), p ∈ splitHyphen s → '-' ∉ p := by
  intro s
  induction s with
  | nil =>
    intro p hp
    rw [splitHyphen] at hp
    simp at hp
    subst hp
    simp
  | cons c rest ih =>
    intro p hp
    rw [splitHyphen] at hp
    by_cases h : c = '-'
    · rw [if_pos h] at hp
      rcases List.mem_cons.mp hp with rfl | hmem
      · simp
      · exact ih p hmem
    · rw [if_neg h] at hp
      cases hs : splitHyphen rest with
      | nil => exact absurd hs (splitHyphen_ne_nil rest)
      | cons q ps =>
        rw [hs] at hp
        simp only [] at hp
        rcases List.mem_cons.mp hp with rfl | hmem
        · intro hx
          rcases List.mem_cons.mp hx with hcq | hq
          · exact h hcq.symm
          · exact ih q (by rw [hs]; exact List.mem_cons_self q ps) hq
        · exact ih p (by rw [hs]; exact List.mem_cons_of_mem q hmem)

/-- `Atoi` of a hyphen-free string never returns a negative value: the
negative branch requires a leading minus sign. -/
theorem goAtoi_nonneg {s : List Char} {a : Int} (hs : '-' ∉ s)
    (h : goAtoi s = some a) : 0 ≤ a := by
  cases s with
  | nil => rw [goAtoi] at h; cases h
  | cons c rest =>
    have hc : c ≠ '-' := fun hcm => hs (hcm ▸ List.mem_cons_self c rest)
    rw [goAtoi] at h
    by_cases hp : c = '+'
    · rw [if_pos hp] at h
      rcases Option.bind_eq_some.mp h with ⟨n, _, hfn⟩
      split at hfn
      · cases hfn; exact Int.natCast_nonneg n
      · cases hfn
    · rw [if_neg hp, if_neg hc] at h
      rcases Option.bind_eq_some.mp h with ⟨n, _, hfn⟩
      split at hfn
      · cases hfn; exact Int.natCast_nonneg n
      · cases hfn

/-! ## Run-shape lemmas for `goMain` -/

theorem goMain_usage {wmType monitorName workspaceRange : String} {dr vb : Bool}
    {b : BackendOracle}
    (h : wmType = "" ∨ monitorName = "" ∨ workspaceRange = "") :
    goMain wmType monitorName workspaceRange dr vb b = some ([.printUsage], 1) := by
  rw [goMain, if_pos h]

theorem goMain_initFail {wmType monitorName workspaceRange : String} {dr vb : Bool}
    {b : BackendOracle} {e : String}
    (hw : wmType ≠ "") (hm : monitorName ≠ "") (hr : workspaceRange ≠ "")
    (hsel : goToLower wmType = "hyprland" ∨ goToLower wmType = "sway")
    (hinit : b.initRes = some e) :
    goMain wmType monitorName workspaceRange dr vb b =
      some ([.initCall, .output .err ("Failed to initialize " ++ wmType ++ ": " ++ e)], 1) := by
  rw [goMain, if_neg (by simp [hw, hm, hr]), if_pos hsel, hinit]

theorem goMain_parseFail {wmType monitorName workspaceRange : String} {dr vb : Bool}
    {b : BackendOracle} {msg : String}
    (hw : wmType ≠ "") (hm : monitorName ≠ "") (hr : workspaceRange ≠ "")
    (hsel : goToLower wmType = "hyprland" ∨ goToLower wmType = "sway")
    (hinit : b.initRes = none)
    (hparse : parseRange workspaceRange = .error msg) :
    goMain wmType monitorName workspaceRange dr vb b =
      some ([.initCall, .output .err msg], 1) := by
  rw [goMain, if_neg (by simp [hw, hm, hr]), if_pos hsel, hinit, hparse]

theorem goMain_divergent {wmType monitorName workspaceRange : String} {dr vb : Bool}
    {b : BackendOracle} {start stop : Int}
    (hw : wmType ≠ "") (hm : monitorName ≠ "") (hr : workspaceRange ≠ "")
    (hsel : goToLower wmType = "hyprland" ∨ goToLower wmType = "sway")
    (hinit : b.initRes = none)
    (hparse : parseRange workspaceRange = .ok (start, stop))
    (h : start ≤ stop ∧ stop = 2 ^ 63 - 1) :
    goMain wmType monitorName workspaceRange dr vb b = none := by
  rw [goMain, if_neg (by simp [hw, hm, hr]), if_pos hsel, hinit, hparse]
  exact if_pos h

theorem goMain_run {wmType monitorName workspaceRange : String} {dr vb : Bool}
    {b : BackendOracle} {start stop : Int}
    (hw : wmType ≠ "") (hm : monitorName ≠ "") (hr : workspaceRange ≠ "")
    (hsel : goToLower wmType = "hyprland" ∨ goToLower wmType = "sway")
    (hinit : b.initRes = none)
    (hparse : parseRange workspaceRange = .ok (start, stop))
    (hterm : ¬(start ≤ stop ∧ stop = 2 ^ 63 - 1)) :
    goMain wmType monitorName workspaceRange dr vb b =
      some ([Event.initCall] ++
        (intRange start stop).flatMap (stepEvents dr vb monitorName b) ++
        (if vb then
          [Event.output .err ("Successfully configured " ++
            toString (stop - start + 1) ++ " workspaces")]
        else []) ++
        [Event.closeCall], 0) := by
  rw [goMain, if_neg (by simp [hw, hm, hr]), if_pos hsel, hinit, hparse]
  exact if_neg hterm

/-- Every event of one loop iteration is a standard-error line or the
iteration's own assignment call. -/
theorem stepEvents_cases {dr vb : Bool} {m : String} {b : BackendOracle} {ws : Int}
    {e : Event} (he : e ∈ stepEvents dr vb m b ws) :
    (∃ line, e = .output .err line) ∨ e = .assignCall ws m := by
  rw [stepEvents] at he
  by_cases hdr : dr
  · rw [if_pos hdr] at he
    simp at he
    exact Or.inl ⟨_, he⟩
  · rw [if_neg hdr] at he
    rcases List.mem_append.mp he with h1 | h2
    · rcases List.mem_append.mp h1 with h3 | h4
      · by_cases hvb : vb
        · rw [if_pos hvb] at h3
          simp at h3
          exact Or.inl ⟨_, h3⟩
        · rw [if_neg hvb] at h3
          simp at h3
      · simp at h4
        exact Or.inr h4
    · cases ha : b.assignRes ws m with
      | some err => rw [ha] at h2; simp at h2; exact Or.inl ⟨_, h2⟩
      | none => rw [ha] at h2; simp at h2

theorem assignedWs_append (l1 l2 : List Event) :
    assignedWs (l1 ++ l2) = assignedWs l1 ++ assignedWs l2 :=
  List.filterMap_append ..

/-- With dry-run off, one loop iteration makes exactly one assignment
call, for its own workspace. -/
theorem assignedWs_stepEvents (vb : Bool) (m : String) (b : BackendOracle) (ws : Int) :
    assignedWs (stepEvents false vb m b ws) = [ws] := by
  rw [stepEvents, if_neg (by simp)]
  cases ha : b.assignRes ws m <;> cases vb <;>
    simp [assignedWs, ha]

/-- With dry-run off, the loop attempts exactly the workspaces of the
iteration sequence, in order. -/
theorem assignedWs_loop (vb : Bool) (m : String) (b : BackendOracle) (l : List Int) :
    assignedWs (l.flatMap (stepEvents false vb m b)) = l := by
  induction l with
  | nil => rfl
  | cons ws rest ih =>
    rw [List.flatMap_cons, assignedWs_append, assignedWs_stepEvents, ih]
    rfl

/-- With dry-run on, one loop iteration is exactly one standard-error
description of the intended action, and nothing else. -/
theorem stepEvents_dryRun (vb : Bool) (m : String) (b : BackendOracle) (ws : Int) :
    stepEvents true vb m b ws =
      [.output .err ("Would assign workspace " ++ toString ws ++ " to monitor " ++ m)] := by
  rw [stepEvents, if_pos rfl]

/-- The loop events never contain a `Close` call. -/
theorem countClose_loop (dr vb : Bool) (m : String) (b : BackendOracle) (l : List Int) :
    ((l.flatMap (stepEvents dr vb m b)).countP isClose) = 0 := by
  rw [List.countP_eq_zero]
  intro e he
  rcases List.mem_flatMap.mp he with ⟨ws, _, hstep⟩
  rcases stepEvents_cases hstep with ⟨line, rfl⟩ | rfl <;> simp [isClose]

/-- The loop events never contain the usage text. -/
theorem countUsage_loop (dr vb : Bool) (m : String) (b : BackendOracle) (l : List Int) :
    ((l.flatMap (stepEvents dr vb m b)).countP isUsage) = 0 := by
  rw [List.countP_eq_zero]
  intro e he
  rcases List.mem_flatMap.mp he with ⟨ws, _, hstep⟩
  rcases stepEvents_cases hstep with ⟨line, rfl⟩ | rfl <;> simp [isUsage]

/-- When every structured reply succeeds, the reply inspection finds
nothing to report. -/
theorem firstFailure_none {l : List SwayReply} (h : ∀ r ∈ l, r.success = true) :
    firstFailure l = none := by
  induction l with
  | nil => rfl
  | cons a rest ih =>
    rw [firstFailure, if_pos (h a (List.mem_cons_self a rest))]
    exact ih fun r hr => h r (List.mem_cons_of_mem a hr)

/-- When some structured reply fails, the reply inspection reports the
first failing reply's own error text. -/
theorem firstFailure_of_failure {l : List SwayReply}
    (h : ∃ r ∈ l, r.success = false) :
    ∃ r ∈ l, r.success = false ∧
      firstFailure l = some ("Sway command failed: " ++ r.errText) := by
  induction l with
  | nil => simp at h
  | cons a rest ih =>
    by_cases ha : a.success
    · have hrest : ∃ r ∈ rest, r.success = false := by
        rcases h with ⟨x, hx, hxf⟩
        rcases List.mem_cons.mp hx with rfl | hm
        · rw [hxf] at ha; cases ha
        · exact ⟨x, hm, hxf⟩
      obtain ⟨r, hr, hrf, heq⟩ := ih hrest
      refine ⟨r, List.mem_cons_of_mem a hr, hrf, ?_⟩
      rw [firstFailure, if_pos ha, heq]
    · refine ⟨a, List.mem_cons_self a rest, by simpa using ha, ?_⟩
      rw [firstFailure, if_neg ha]

/-- The batch string contains exactly two directives per workspace. -/
theorem batch_two_per_workspace (m : String) (l : List Int) :
    (l.flatMap (fun ws => hyprlandCmds ws m)).length = 2 * l.length := by
  induction l with
  | nil => rfl
  | cons ws rest ih =>
    rw [List.flatMap_cons, List.length_append, ih]
    simp [hyprlandCmds]
    omega

/-! ## Claims -/

/-- Claim C2: on an open connection, the direct-socket backend's
`AssignWorkspaceToMonitor` sends exactly the two directives, in order —
first the `keyword workspace w,monitor:M` binding directive, then the
`dispatch moveworkspacetomonitor w M` move directive — with the
workspace number and monitor name substituted verbatim into both; when
the write of the first directive fails, its error is surfaced
immediately and the second directive is not attempted. -/
theorem hypr_two_directives (c : HyprConn) (w : Int) (M : String) :
    hyprlandCmds w M =
      ["keyword workspace " ++ toString w ++ ",monitor:" ++ M,
       "dispatch moveworkspacetomonitor " ++ toString w ++ " " ++ M] ∧
    (c.writeRes ("keyword workspace " ++ toString w ++ ",monitor:" ++ M ++ "\n") = none →
     c.writeRes ("dispatch moveworkspacetomonitor " ++ toString w ++ " " ++ M ++ "\n") = none →
     hyprAssignWorkspaceToMonitor (some c) w M =
       (["keyword workspace " ++ toString w ++ ",monitor:" ++ M,
         "dispatch moveworkspacetomonitor " ++ toString w ++ " " ++ M], none)) ∧
    (∀ e, c.writeRes ("keyword workspace " ++ toString w ++ ",monitor:" ++ M ++ "\n") = some e →
     hyprAssignWorkspaceToMonitor (some c) w M =
       (["keyword workspace " ++ toString w ++ ",monitor:" ++ M],
        some ("failed to send command \x27" ++
          ("keyword workspace " ++ toString w ++ ",monitor:" ++ M) ++ "\x27: " ++ e))) := by
  refine ⟨rfl, ?_, ?_⟩
  · intro h1 h2
    simp [hyprAssignWorkspaceToMonitor, hyprlandCmds, sendCmds, sendMessage, h1, h2]
  · intro e h1
    simp [hyprAssignWorkspaceToMonitor, hyprlandCmds, sendCmds, sendMessage, h1]

/-- Witness for C2 at workspace 3 and monitor DP-1, once with an
all-successful write oracle and once with an always-failing one. -/
theorem hypr_two_directives_witness :
    hyprAssignWorkspaceToMonitor (some ⟨fun _ => none⟩) 3 "DP-1" =
      (["keyword workspace 3,monitor:DP-1", "dispatch moveworkspacetomonitor 3 DP-1"],
       none) ∧
    hyprAssignWorkspaceToMonitor (some ⟨fun _ => some "EPIPE"⟩) 3 "DP-1" =
      (["keyword workspace 3,monitor:DP-1"],
       some "failed to send command \x27keyword workspace 3,monitor:DP-1\x27: EPIPE") := by
  constructor
  · exact ((hypr_two_directives ⟨fun _ => none⟩ 3 "DP-1").2.1 rfl rfl).trans rfl
  · exact ((hypr_two_directives ⟨fun _ => some "EPIPE"⟩ 3 "DP-1").2.2 "EPIPE" rfl).trans rfl

/-- Claim C7: the request/reply (Sway) backend issues exactly one
combined workspace-switch-and-move-to-output command string per
workspace; a failing structured reply makes the call fail with the
compositor's own error text, a transport failure makes it fail with a
connection error. -/
theorem sway_one_command (runCmd : String → Except String (List SwayReply))
    (w : Int) (M : String) :
    (swayAssignWorkspaceToMonitor runCmd w M).1 = [swayCmd w M] ∧
    swayCmd w M = "workspace number " ++ toString w ++ ", move workspace to output " ++ M ∧
    (∀ e, runCmd (swayCmd w M) = .error e →
      (swayAssignWorkspaceToMonitor runCmd w M).2 =
        some ("failed to run Sway command: " ++ e)) ∧
    (∀ replies, runCmd (swayCmd w M) = .ok replies →
      (∃ r ∈ replies, r.success = false) →
      ∃ r ∈ replies, r.success = false ∧
        (swayAssignWorkspaceToMonitor runCmd w M).2 =
          some ("Sway command failed: " ++ r.errText)) ∧
    (∀ replies, runCmd (swayCmd w M) = .ok replies →
      (∀ r ∈ replies, r.success = true) →
      (swayAssignWorkspaceToMonitor runCmd w M).2 = none) := by
  refine ⟨?_, rfl, ?_, ?_, ?_⟩
  · cases h : runCmd (swayCmd w M) <;>
      simp [swayAssignWorkspaceToMonitor, h]
  · intro e h
    simp [swayAssignWorkspaceToMonitor, h]
  · intro replies h hfail
    obtain ⟨r, hr, hrf, heq⟩ := firstFailure_of_failure hfail
    exact ⟨r, hr, hrf, by simp [swayAssignWorkspaceToMonitor, h, heq]⟩
  · intro replies h hall
    simp [swayAssignWorkspaceToMonitor, h, firstFailure_none hall]

/-- Witness for C7 at workspace 2 and monitor DP-1: a failing reply
surfaces the compositor's text, a transport error surfaces a connection
error, and in both cases exactly one command string is issued. -/
theorem sway_one_command_witness :
    (swayAssignWorkspaceToMonitor (fun _ => .ok [⟨false, "no such output"⟩]) 2 "DP-1").1 =
      [swayCmd 2 "DP-1"] ∧
    (∃ r ∈ [(⟨false, "no such output"⟩ : SwayReply)], r.success = false ∧
      (swayAssignWorkspaceToMonitor (fun _ => .ok [⟨false, "no such output"⟩]) 2 "DP-1").2 =
        some ("Sway command failed: " ++ r.errText)) ∧
    (swayAssignWorkspaceToMonitor (fun _ => .error "EOF") 2 "DP-1").2 =
      some ("failed to run Sway command: " ++ "EOF") := by
  refine ⟨(sway_one_command (fun _ => .ok [⟨false, "no such output"⟩]) 2 "DP-1").1, ?_, ?_⟩
  · exact (sway_one_command (fun _ => .ok [⟨false, "no such output"⟩]) 2 "DP-1").2.2.2.1
      [⟨false, "no such output"⟩] rfl ⟨⟨false, "no such output"⟩, by simp, rfl⟩
  · exact (sway_one_command (fun _ => .error "EOF") 2 "DP-1").2.2.1 "EOF" rfl

/-- Reduction of `parseRange` once the split shape is known. -/
theorem parseRange_eq_of_split {s : String} {p q : List Char}
    (heq : splitHyphen s.data = [p, q]) :
    parseRange s =
      (match goAtoi p with
       | none => .error "Invalid start range:"
       | some a =>
         match goAtoi q with
         | none => .error "Invalid end range:"
         | some b => .ok (a, b)) := by
  unfold parseRange
  rw [heq]

/-- Claim C10: whenever range parsing succeeds, both integers are
non-negative — every hyphen is consumed as a separator, so no part can
carry a minus sign. -/
theorem parseRange_nonneg (s : String) (a b : Int)
    (h : parseRange s = .ok (a, b)) : 0 ≤ a ∧ 0 ≤ b := by
  rcases hsp : splitHyphen s.data with _ | ⟨p, _ | ⟨q, _ | ⟨r, rest⟩⟩⟩
  · exact absurd hsp (splitHyphen_ne_nil s.data)
  · unfold parseRange at h; rw [hsp] at h; simp at h
  · rw [parseRange_eq_of_split hsp] at h
    cases hp : goAtoi p with
    | none => rw [hp] at h; simp at h
    | some a1 =>
      rw [hp] at h
      cases hq : goAtoi q with
      | none => rw [hq] at h; simp at h
      | some b1 =>
        rw [hq] at h
        simp at h
        obtain ⟨rfl, rfl⟩ := h
        have hpm : '-' ∉ p :=
          mem_splitHyphen_no_hyphen s.data p (by rw [hsp]; simp)
        have hqm : '-' ∉ q :=
          mem_splitHyphen_no_hyphen s.data q (by rw [hsp]; simp)
        exact ⟨goAtoi_nonneg hpm hp, goAtoi_nonneg hqm hq⟩
  · unfold parseRange at h; rw [hsp] at h; simp at h

/-- Witness for C10 at the range string 3-7. -/
theorem parseRange_nonneg_witness :
    parseRange "3-7" = .ok (3, 7) ∧ (0 : Int) ≤ 3 ∧ (0 : Int) ≤ 7 :=
  ⟨rfl, parseRange_nonneg "3-7" 3 7 rfl⟩

/-- Claim C4: the range parser splits on the hyphen and fails with a
format error unless there are exactly two parts, each parsing as an
integer; "1-5" parses to (1, 5), while "5", "1-2-3", "a-5" and "1-b"
each fail, and on any parse failure no assignment call is made. -/
theorem parseRange_contract :
    parseRange "1-5" = .ok (1, 5) ∧
    parseRange "5" = .error "Range must be in format \x27n-m\x27" ∧
    parseRange "1-2-3" = .error "Range must be in format \x27n-m\x27" ∧
    parseRange "a-5" = .error "Invalid start range:" ∧
    parseRange "1-b" = .error "Invalid end range:" ∧
    (∀ (s : String) (v : Int × Int), parseRange s = .ok v ↔
      ∃ p q, splitHyphen s.data = [p, q] ∧
        goAtoi p = some v.1 ∧ goAtoi q = some v.2) ∧
    (∀ (wmType mn rng : String) (dr vb : Bool) (b : BackendOracle) (msg : String),
      wmType ≠ "" → mn ≠ "" → rng ≠ "" →
      (goToLower wmType = "hyprland" ∨ goToLower wmType = "sway") →
      b.initRes = none → parseRange rng = .error msg →
      assignedWs (runTrace (goMain wmType mn rng dr vb b)) = []) := by
  refine ⟨rfl, rfl, rfl, rfl, rfl, ?_, ?_⟩
  · intro s v
    constructor
    · intro h
      rcases hsp : splitHyphen s.data with _ | ⟨p, _ | ⟨q, _ | ⟨r, rest⟩⟩⟩
      · exact absurd hsp (splitHyphen_ne_nil s.data)
      · unfold parseRange at h; rw [hsp] at h; simp at h
      · rw [parseRange_eq_of_split hsp] at h
        cases hp : goAtoi p with
        | none => rw [hp] at h; simp at h
        | some a1 =>
          rw [hp] at h
          cases hq : goAtoi q with
          | none => rw [hq] at h; simp at h
          | some b1 =>
            rw [hq] at h
            simp at h
            subst h
            exact ⟨p, q, rfl, hp, hq⟩
      · unfold parseRange at h; rw [hsp] at h; simp at h
    · rintro ⟨p, q, heq, hp, hq⟩
      rw [parseRange_eq_of_split heq, hp, hq]
  · intro wmType mn rng dr vb b msg hw hm hr hsel hinit hparse
    rw [goMain_parseFail hw hm hr hsel hinit hparse]
    rfl

/-- Witness for C4: the characterisation instantiated at "1-5", and a
failed parse ("a-5") leading to a run with zero assignment calls. -/
theorem parseRange_contract_witness :
    (parseRange "1-5" = .ok ((1 : Int), (5 : Int)) ↔
      ∃ p q, splitHyphen "1-5".data = [p, q] ∧
        goAtoi p = some 1 ∧ goAtoi q = some 5) ∧
    assignedWs (runTrace (goMain "hyprland" "DP-1" "a-5" false false okOracle)) = [] := by
  constructor
  · exact parseRange_contract.2.2.2.2.2.1 "1-5" (1, 5)
  · exact parseRange_contract.2.2.2.2.2.2 "hyprland" "DP-1" "a-5" false false okOracle
      "Invalid start range:" (by decide) (by decide) (by decide) (Or.inl rfl) rfl rfl

/-- Claim C1 counterexample: valid flags, Init succeeded, but the range
"1-x" fails to parse — main's log.Fatal calls os.Exit(1), which skips
deferred functions, so the deferred backend Close is never invoked:
the run ends with exit status 1, its trace contains the Init call and
zero Close calls. -/
theorem close_once_cex :
    okOracle.initRes = none ∧
    (goMain "hyprland" "DP-1" "1-x" false false okOracle).isSome = true ∧
    (runTrace (goMain "hyprland" "DP-1" "1-x" false false okOracle)).countP isInit = 1 ∧
    (runTrace (goMain "hyprland" "DP-1" "1-x" false false okOracle)).countP isClose = 0 ∧
    runCode (goMain "hyprland" "DP-1" "1-x" false false okOracle) = 1 := by
  decide

/-- Claim C1 (amended): after a successful Init, if the range parses
(and the loop terminates), the backend Close is invoked exactly once,
as the very last action after the workspace loop; but on an early fatal
exit after Init — a range-parse failure — Close is not invoked at all,
because log.Fatal exits the process without running the deferred call. -/
theorem close_once_after_loop (wmType mn rng : String) (dr vb : Bool)
    (b : BackendOracle)
    (hw : wmType ≠ "") (hm : mn ≠ "") (hr : rng ≠ "")
    (hsel : goToLower wmType = "hyprland" ∨ goToLower wmType = "sway")
    (hinit : b.initRes = none) :
    (∀ (s e : Int), parseRange rng = .ok (s, e) →
      ∀ (tr : List Event) (code : Nat),
        goMain wmType mn rng dr vb b = some (tr, code) →
        tr.countP isClose = 1 ∧ tr.getLast? = some .closeCall) ∧
    (∀ msg, parseRange rng = .error msg →
      goMain wmType mn rng dr vb b = some ([.initCall, .output .err msg], 1) ∧
      ([Event.initCall, Event.output .err msg].countP isClose) = 0) := by
  constructor
  · intro s e hparse tr code hrun
    by_cases hdiv : s ≤ e ∧ e = 2 ^ 63 - 1
    · rw [goMain_divergent hw hm hr hsel hinit hparse hdiv] at hrun
      cases hrun
    · rw [goMain_run hw hm hr hsel hinit hparse hdiv] at hrun
      injection hrun with hrun
      rw [Prod.mk.injEq] at hrun
      obtain ⟨htr, -⟩ := hrun
      subst htr
      constructor
      · cases vb <;>
          simp [List.countP_append, List.countP_cons, countClose_loop, isClose]
      · rw [List.getLast?_append_cons]
        rfl
  · intro msg hparse
    exact ⟨goMain_parseFail hw hm hr hsel hinit hparse, rfl⟩

/-- Witness for C1 (amended) on the run hyprland/DP-1/1-2. -/
theorem close_once_after_loop_witness :
    ([Event.initCall, Event.assignCall 1 "DP-1", Event.assignCall 2 "DP-1",
        Event.closeCall].countP isClose = 1) ∧
    ([Event.initCall, Event.assignCall 1 "DP-1", Event.assignCall 2 "DP-1",
        Event.closeCall].getLast? = some Event.closeCall) := by
  exact (close_once_after_loop "hyprland" "DP-1" "1-2" false false okOracle
    (by decide) (by decide) (by decide) (Or.inl rfl) rfl).1 1 2 rfl
    [Event.initCall, Event.assignCall 1 "DP-1", Event.assignCall 2 "DP-1",
      Event.closeCall] 0 rfl

/-- Claim C8 counterexample: the malformed range "1-2-3" (flags present,
Init succeeded) is fatal with exit status 1, but the usage text is not
printed — the bad range goes through log.Fatal, not flag.Usage. -/
theorem malformed_range_cex :
    runCode (goMain "hyprland" "DP-1" "1-2-3" false false okOracle) = 1 ∧
    (runTrace (goMain "hyprland" "DP-1" "1-2-3" false false okOracle)).countP isUsage = 0 ∧
    (goMain "hyprland" "DP-1" "1-2-3" false false okOracle).isSome = true := by
  decide

/-- Claim C8 (amended): a malformed range string (reached with flags
present, a valid backend selector and a successful Init) is always
fatal: the run exits with status 1 and an error message on standard
error, no assignment is attempted — but the usage text is not printed
(usage is printed only when a required flag is missing). -/
theorem malformed_range_fatal (wmType mn rng : String) (dr vb : Bool)
    (b : BackendOracle) (msg : String)
    (hw : wmType ≠ "") (hm : mn ≠ "") (hr : rng ≠ "")
    (hsel : goToLower wmType = "hyprland" ∨ goToLower wmType = "sway")
    (hinit : b.initRes = none)
    (hparse : parseRange rng = .error msg) :
    goMain wmType mn rng dr vb b = some ([.initCall, .output .err msg], 1) ∧
    ([Event.initCall, Event.output .err msg].countP isUsage) = 0 ∧
    assignedWs [Event.initCall, Event.output .err msg] = [] :=
  ⟨goMain_parseFail hw hm hr hsel hinit hparse, rfl, rfl⟩

/-- Witness for C8 (amended) at the malformed range "5". -/
theorem malformed_range_fatal_witness :
    goMain "hyprland" "DP-1" "5" false false okOracle =
      some ([.initCall, .output .err "Range must be in format \x27n-m\x27"], 1) ∧
    ([Event.initCall,
      Event.output .err "Range must be in format \x27n-m\x27"].countP isUsage) = 0 ∧
    assignedWs [Event.initCall,
      Event.output .err "Range must be in format \x27n-m\x27"] = [] :=
  malformed_range_fatal "hyprland" "DP-1" "5" false false okOracle
    "Range must be in format \x27n-m\x27"
    (by decide) (by decide) (by decide) (Or.inl rfl) rfl rfl

/-- The dry-run loop emits exactly one description event per workspace. -/
theorem dryRun_loop_events (vb : Bool) (m : String) (b : BackendOracle) (l : List Int) :
    l.flatMap (stepEvents true vb m b) =
      l.map (fun ws =>
        .output .err ("Would assign workspace " ++ toString ws ++ " to monitor " ++ m)) := by
  induction l with
  | nil => rfl
  | cons ws rest ih => rw [List.flatMap_cons, stepEvents_dryRun, ih]; rfl

theorem assignedWs_map_output (str : StdStream) (f : Int → String) (l : List Int) :
    assignedWs (l.map (fun ws => Event.output str (f ws))) = [] := by
  simp [assignedWs, List.filterMap_map, Function.comp]

theorem stdoutLines_append (l1 l2 : List Event) :
    stdoutLines (l1 ++ l2) = stdoutLines l1 ++ stdoutLines l2 :=
  List.filterMap_append ..

theorem stderrLines_append (l1 l2 : List Event) :
    stderrLines (l1 ++ l2) = stderrLines l1 ++ stderrLines l2 :=
  List.filterMap_append ..

theorem stdoutLines_map_output_err (f : Int → String) (l : List Int) :
    stdoutLines (l.map (fun ws => Event.output .err (f ws))) = [] := by
  simp [stdoutLines, List.filterMap_map, Function.comp]

theorem stderrLines_map_output_err (f : Int → String) (l : List Int) :
    stderrLines (l.map (fun ws => Event.output .err (f ws))) = l.map f := by
  induction l with
  | nil => rfl
  | cons ws rest ih => simpa [stderrLines, List.filterMap_cons] using ih

/-- Claim C6 counterexample: the dry-run over DP-1 and range 1-3 makes
zero assignment calls and prints exactly one description per workspace
— but the three descriptions go to standard error (the log package's
default), and standard output receives nothing, refuting "written to
standard output". -/
theorem dryrun_stdout_cex :
    assignedWs (runTrace (goMain "hyprland" "DP-1" "1-3" true false okOracle)) = [] ∧
    stderrLines (runTrace (goMain "hyprland" "DP-1" "1-3" true false okOracle)) =
      ["Would assign workspace 1 to monitor DP-1",
       "Would assign workspace 2 to monitor DP-1",
       "Would assign workspace 3 to monitor DP-1"] ∧
    stdoutLines (runTrace (goMain "hyprland" "DP-1" "1-3" true false okOracle)) = [] := by
  decide

/-- Claim C6 (amended): with dry-run enabled (flags present, valid
selector, Init successful, range parsed), the run makes zero
`AssignWorkspaceToMonitor` calls, prints exactly one description of the
intended action per workspace in the range — on standard error, not
standard output (plus the verbose summary when verbose) — and nothing
at all on standard output. -/
theorem dryrun_descriptions (wmType mn rng : String) (vb : Bool)
    (b : BackendOracle) (s e : Int) (tr : List Event) (code : Nat)
    (hw : wmType ≠ "") (hm : mn ≠ "") (hr : rng ≠ "")
    (hsel : goToLower wmType = "hyprland" ∨ goToLower wmType = "sway")
    (hinit : b.initRes = none)
    (hparse : parseRange rng = .ok (s, e))
    (hrun : goMain wmType mn rng true vb b = some (tr, code)) :
    assignedWs tr = [] ∧
    stdoutLines tr = [] ∧
    stderrLines tr =
      (intRange s e).map
        (fun ws => "Would assign workspace " ++ toString ws ++ " to monitor " ++ mn) ++
      (if vb then
        ["Successfully configured " ++ toString (e - s + 1) ++ " workspaces"]
      else []) := by
  by_cases hdiv : s ≤ e ∧ e = 2 ^ 63 - 1
  · rw [goMain_divergent hw hm hr hsel hinit hparse hdiv] at hrun
    cases hrun
  · rw [goMain_run hw hm hr hsel hinit hparse hdiv] at hrun
    injection hrun with hrun
    rw [Prod.mk.injEq] at hrun
    obtain ⟨htr, -⟩ := hrun
    subst htr
    rw [dryRun_loop_events]
    refine ⟨?_, ?_, ?_⟩
    · rw [assignedWs_append, assignedWs_append, assignedWs_append,
        assignedWs_map_output]
      cases vb <;> rfl
    · rw [stdoutLines_append, stdoutLines_append, stdoutLines_append,
        stdoutLines_map_output_err]
      cases vb <;> rfl
    · rw [stderrLines_append, stderrLines_append, stderrLines_append,
        stderrLines_map_output_err]
      cases vb <;> simp [stderrLines]

/-- Witness for C6 (amended) on the dry run hyprland/DP-1/2-3. -/
theorem dryrun_descriptions_witness :
    assignedWs [Event.initCall,
      Event.output .err "Would assign workspace 2 to monitor DP-1",
      Event.output .err "Would assign workspace 3 to monitor DP-1",
      Event.closeCall] = [] ∧
    stdoutLines [Event.initCall,
      Event.output .err "Would assign workspace 2 to monitor DP-1",
      Event.output .err "Would assign workspace 3 to monitor DP-1",
      Event.closeCall] = [] ∧
    stderrLines [Event.initCall,
      Event.output .err "Would assign workspace 2 to monitor DP-1",
      Event.output .err "Would assign workspace 3 to monitor DP-1",
      Event.closeCall] =
      (intRange 2 3).map
        (fun ws => "Would assign workspace " ++ toString ws ++ " to monitor " ++ "DP-1") ++
      (if false then
        ["Successfully configured " ++ toString ((3 : Int) - 2 + 1) ++ " workspaces"]
      else []) := by
  exact dryrun_descriptions "hyprland" "DP-1" "2-3" false okOracle 2 3
    [Event.initCall,
      Event.output .err "Would assign workspace 2 to monitor DP-1",
      Event.output .err "Would assign workspace 3 to monitor DP-1",
      Event.closeCall] 0
    (by decide) (by decide) (by decide) (Or.inl rfl) rfl rfl rfl

/-- On a terminating non-dry run, the assignment calls are exactly the
workspaces of the parsed range, in order, and the exit status is 0 —
whatever the per-workspace results. -/
theorem goMain_assigned_range (wmType mn rng : String) (vb : Bool)
    (b : BackendOracle) (s e : Int) (tr : List Event) (code : Nat)
    (hw : wmType ≠ "") (hm : mn ≠ "") (hr : rng ≠ "")
    (hsel : goToLower wmType = "hyprland" ∨ goToLower wmType = "sway")
    (hinit : b.initRes = none)
    (hparse : parseRange rng = .ok (s, e))
    (hrun : goMain wmType mn rng false vb b = some (tr, code)) :
    assignedWs tr = intRange s e ∧ code = 0 := by
  by_cases hdiv : s ≤ e ∧ e = 2 ^ 63 - 1
  · rw [goMain_divergent hw hm hr hsel hinit hparse hdiv] at hrun
    cases hrun
  · rw [goMain_run hw hm hr hsel hinit hparse hdiv] at hrun
    injection hrun with hrun
    rw [Prod.mk.injEq] at hrun
    obtain ⟨htr, hcode⟩ := hrun
    subst htr
    refine ⟨?_, hcode.symm⟩
    rw [assignedWs_append, assignedWs_append, assignedWs_append, assignedWs_loop]
    cases vb <;> simp [assignedWs]

/-- Claim C5: with the per-workspace backends, one workspace's
assignment failure is non-fatal — its error is logged, every workspace
of the range is still attempted in order, and the exit status is 0. -/
theorem assign_failure_nonfatal (wmType mn rng : String) (vb : Bool)
    (b : BackendOracle) (s e : Int) (tr : List Event) (code : Nat)
    (hw : wmType ≠ "") (hm : mn ≠ "") (hr : rng ≠ "")
    (hsel : goToLower wmType = "hyprland" ∨ goToLower wmType = "sway")
    (hinit : b.initRes = none)
    (hparse : parseRange rng = .ok (s, e))
    (hrun : goMain wmType mn rng false vb b = some (tr, code)) :
    assignedWs tr = intRange s e ∧
    code = 0 ∧
    (∀ ws ∈ intRange s e, ∀ err, b.assignRes ws mn = some err →
      Event.output .err ("Error assigning workspace " ++ toString ws ++ ": " ++ err) ∈ tr) := by
  by_cases hdiv : s ≤ e ∧ e = 2 ^ 63 - 1
  · rw [goMain_divergent hw hm hr hsel hinit hparse hdiv] at hrun
    cases hrun
  · rw [goMain_run hw hm hr hsel hinit hparse hdiv] at hrun
    injection hrun with hrun
    rw [Prod.mk.injEq] at hrun
    obtain ⟨htr, hcode⟩ := hrun
    subst htr
    refine ⟨?_, hcode.symm, ?_⟩
    · rw [assignedWs_append, assignedWs_append, assignedWs_append, assignedWs_loop]
      cases vb <;> simp [assignedWs]
    · intro ws hws err herr
      have hmem : Event.output .err
          ("Error assigning workspace " ++ toString ws ++ ": " ++ err) ∈
          stepEvents false vb mn b ws := by
        rw [stepEvents, if_neg (by simp), herr]
        cases vb <;> simp
      exact List.mem_append_left _ (List.mem_append_left _ (List.mem_append_right _
        (List.mem_flatMap.mpr ⟨ws, hws, hmem⟩)))

/-- Witness for C5: over the range 1-3 with an oracle failing exactly at
workspace 2, all three workspaces are attempted, the failure is logged
and the exit status is 0. -/
theorem assign_failure_nonfatal_witness :
    assignedWs [Event.initCall, Event.assignCall 1 "DP-1", Event.assignCall 2 "DP-1",
      Event.output .err "Error assigning workspace 2: boom", Event.assignCall 3 "DP-1",
      Event.closeCall] = intRange 1 3 ∧
    (0 : Nat) = 0 ∧
    (∀ ws ∈ intRange 1 3, ∀ err,
      (BackendOracle.mk none
        (fun ws _ => if ws = 2 then some "boom" else none)).assignRes ws "DP-1" = some err →
      Event.output .err ("Error assigning workspace " ++ toString ws ++ ": " ++ err) ∈
        [Event.initCall, Event.assignCall 1 "DP-1", Event.assignCall 2 "DP-1",
         Event.output .err "Error assigning workspace 2: boom", Event.assignCall 3 "DP-1",
         Event.closeCall]) := by
  exact assign_failure_nonfatal "hyprland" "DP-1" "1-3" false
    (BackendOracle.mk none (fun ws _ => if ws = 2 then some "boom" else none)) 1 3
    [Event.initCall, Event.assignCall 1 "DP-1", Event.assignCall 2 "DP-1",
     Event.output .err "Error assigning workspace 2: boom", Event.assignCall 3 "DP-1",
     Event.closeCall] 0
    (by decide) (by decide) (by decide) (Or.inl rfl) rfl rfl rfl

/-- Claim C3 counterexample: the range
"9223372036854775806-9223372036854775807" parses with start ≤ end, so
the claim demands exactly 2 assignment attempts in ascending order; but
end is the maximum 64-bit int, so the loop condition ws <= end never
fails — after the second iteration the counter wraps to -2^63 and the
loop keeps attempting further workspaces (3 within the first 3 steps,
in non-ascending order) and never terminates. -/
theorem loop_count_order_cex :
    parseRange "9223372036854775806-9223372036854775807" =
      .ok (9223372036854775806, 9223372036854775807) ∧
    (9223372036854775806 : Int) ≤ 9223372036854775807 ∧
    loopAttempts 3 9223372036854775806 9223372036854775807 =
      [9223372036854775806, 9223372036854775807, -9223372036854775808] ∧
    ¬ (loopAttempts 3 9223372036854775806 9223372036854775807).Pairwise
        (fun x y => x < y) ∧
    goMain "hyprland" "DP-1" "9223372036854775806-9223372036854775807"
      false false okOracle = none := by
  refine ⟨rfl, by decide, rfl, ?_, rfl⟩
  intro h
  rw [show loopAttempts 3 9223372036854775806 9223372036854775807 =
      [9223372036854775806, 9223372036854775807, -9223372036854775808] from rfl] at h
  have h2 := (List.pairwise_cons.mp h).2
  have hy := (List.pairwise_cons.mp h2).1
  have := hy (-9223372036854775808) (by simp)
  omega

/-- Claim C3 (amended): for every parsed range with
start ≤ end < 2^63 - 1 the loop attempts exactly end - start + 1
assignments, one per workspace, in strictly ascending order; start >
end is a no-op with zero attempts; but when end = 2^63 - 1 and
start ≤ end, the 64-bit loop counter wraps around and the loop never
terminates (each unit of fuel yields one more attempt). -/
theorem loop_count_order (s e : Int) :
    (-2 ^ 63 ≤ s → s ≤ e → e < 2 ^ 63 - 1 →
      (∀ fuel, (e + 1 - s).toNat ≤ fuel → loopAttempts fuel s e = intRange s e) ∧
      ((intRange s e).length : Int) = e - s + 1) ∧
    (intRange s e).Pairwise (· < ·) ∧
    (e < s → intRange s e = [] ∧ ∀ fuel, loopAttempts fuel s e = []) ∧
    (-2 ^ 63 ≤ s → s ≤ e → e = 2 ^ 63 - 1 →
      ∀ fuel, (loopAttempts fuel s e).length = fuel) ∧
    (∀ (wmType mn rng : String) (vb : Bool) (b : BackendOracle)
        (tr : List Event) (code : Nat),
      wmType ≠ "" → mn ≠ "" → rng ≠ "" →
      (goToLower wmType = "hyprland" ∨ goToLower wmType = "sway") →
      b.initRes = none → parseRange rng = .ok (s, e) →
      goMain wmType mn rng false vb b = some (tr, code) →
      assignedWs tr = intRange s e) := by
  refine ⟨?_, intRange_pairwise s e, ?_, ?_, ?_⟩
  · intro hs hse hmax
    refine ⟨fun fuel hf => loopAttempts_eq_intRange hmax hs hf, ?_⟩
    rw [intRange_length]
    omega
  · intro h
    exact ⟨intRange_nil h, fun fuel => loopAttempts_nil h⟩
  · intro hs hse hmax fuel
    subst hmax
    exact loopAttempts_maxInt_length fuel hs hse
  · intro wmType mn rng vb b tr code hw hm hr hsel hinit hparse hrun
    exact (goMain_assigned_range wmType mn rng vb b s e tr code
      hw hm hr hsel hinit hparse hrun).1

/-- Witness for C3 (amended) on the range 1-3 and the run
hyprland/DP-1/1-3. -/
theorem loop_count_order_witness :
    loopAttempts 5 1 3 = intRange 1 3 ∧
    ((intRange 1 3).length : Int) = 3 - 1 + 1 ∧
    (intRange 1 3).Pairwise (· < ·) ∧
    assignedWs [Event.initCall, Event.assignCall 1 "DP-1",
      Event.assignCall 2 "DP-1", Event.assignCall 3 "DP-1",
      Event.closeCall] = intRange 1 3 := by
  refine ⟨((loop_count_order 1 3).1 (by decide) (by decide) (by decide)).1 5 (by decide),
    ((loop_count_order 1 3).1 (by decide) (by decide) (by decide)).2,
    (loop_count_order 1 3).2.1, ?_⟩
  exact (loop_count_order 1 3).2.2.2.2 "hyprland" "DP-1" "1-3" false okOracle
    [Event.initCall, Event.assignCall 1 "DP-1", Event.assignCall 2 "DP-1",
     Event.assignCall 3 "DP-1", Event.closeCall] 0
    (by decide) (by decide) (by decide) (Or.inl rfl) rfl rfl rfl

/-- Claim C9 (modelled from the spec, Variant C being absent from
src/): the batch variant builds one semicolon-joined command string
with two directives per workspace, invokes the external control
program exactly once with the whole batch as its single argument, and
a non-zero exit status is fatal, surfacing the captured combined
output verbatim. -/
theorem batch_single_invocation (runProg : String → ExecResult)
    (s e : Int) (m : String) :
    (batchAssign runProg s e m).1 = [batchCommand s e m] ∧
    batchCommand s e m =
      String.intercalate ";" ((intRange s e).flatMap (fun ws => hyprlandCmds ws m)) ∧
    ((intRange s e).flatMap (fun ws => hyprlandCmds ws m)).length =
      2 * (intRange s e).length ∧
    ((runProg (batchCommand s e m)).exitCode = 0 →
      (batchAssign runProg s e m).2 = none) ∧
    ((runProg (batchCommand s e m)).exitCode ≠ 0 →
      (batchAssign runProg s e m).2 =
        some (runProg (batchCommand s e m)).combinedOutput ∧
      batchRunExitCode runProg s e m = 1) := by
  refine ⟨rfl, rfl, batch_two_per_workspace m _, ?_, ?_⟩
  · intro h
    simp [batchAssign, h]
  · intro h
    constructor
    · simp [batchAssign, h]
    · simp [batchRunExitCode, batchAssign, h]

/-- Witness for C9: a failing invocation over the range 1-2 surfaces
its captured output verbatim and exits 1; a succeeding one reports no
error. -/
theorem batch_single_invocation_witness :
    (batchAssign (fun _ => ⟨1, "bad batch"⟩) 1 2 "DP-1").1 =
      [batchCommand 1 2 "DP-1"] ∧
    (batchAssign (fun _ => ⟨1, "bad batch"⟩) 1 2 "DP-1").2 = some "bad batch" ∧
    batchRunExitCode (fun _ => ⟨1, "bad batch"⟩) 1 2 "DP-1" = 1 ∧
    (batchAssign (fun _ => ⟨0, ""⟩) 1 2 "DP-1").2 = none := by
  refine ⟨(batch_single_invocation (fun _ => ⟨1, "bad batch"⟩) 1 2 "DP-1").1, ?_, ?_, ?_⟩
  · exact ((batch_single_invocation (fun _ => ⟨1, "bad batch"⟩) 1 2 "DP-1").2.2.2.2
      (by decide)).1
  · exact ((batch_single_invocation (fun _ => ⟨1, "bad batch"⟩) 1 2 "DP-1").2.2.2.2
      (by decide)).2
  · exact (batch_single_invocation (fun _ => ⟨0, ""⟩) 1 2 "DP-1").2.2.2.1 rfl
